import Mathlib

/-!
Verification development for the simple-miio client library.

The TypeScript sources are shallowly embedded below: byte buffers become
`List Nat`, JavaScript exceptions become `Except JsErr`, and the external
Node `crypto` primitives (MD5 and AES-128-CBC) are abstracted into a
`Crypto` record of pure functions; a concrete executable MD5 (RFC 1321)
is provided separately for byte-exact checksum facts.
-/

/-- Kinds of runtime errors thrown by the embedded code.  Each constructor
corresponds to one `throw` site: `range` models Node buffer read/write
out-of-range errors, the `bad*` and `lenMismatch` constructors model the
`Preconditions.checkArgument` failures of the `PacketImpl` constructor,
`checksumFailed` the deserializer's checksum precondition, and
`outOfBound` the guard of `array_utils.remove`. -/
inductive JsErr where
  | range
  | unsupportedWidth
  | badMagic
  | badUnknown1Len
  | badChecksumLen
  | lenMismatch
  | checksumFailed
  | outOfBound
deriving DecidableEq, Repr

/-- `Buffer.slice(startIdx, endIdx)` on a byte buffer. -/
def jsSlice (b : List Nat) (startIdx endIdx : Nat) : List Nat :=
  (b.drop startIdx).take (endIdx - startIdx)

/-- `buffer.readUInt16BE()`: reads the first two bytes, throws a range
error when fewer than two bytes are available. -/
def readUInt16BE : List Nat → Except JsErr Nat
  | b0 :: b1 :: _ => .ok (b0 * 256 + b1)
  | _ => .error .range

/-- `buffer.readUInt32BE()`: reads the first four bytes. -/
def readUInt32BE : List Nat → Except JsErr Nat
  | b0 :: b1 :: b2 :: b3 :: _ => .ok (((b0 * 256 + b1) * 256 + b2) * 256 + b3)
  | _ => .error .range

/-- The two big-endian bytes of a 16-bit value. -/
def beBytes2 (v : Nat) : List Nat := [v / 256 % 256, v % 256]

/-- The four big-endian bytes of a 32-bit value. -/
def beBytes4 (v : Nat) : List Nat :=
  [v / 2 ^ 24 % 256, v / 2 ^ 16 % 256, v / 256 % 256, v % 256]

/-- `numToBytes` from `packet.ts`: writes `value` big-endian into a fresh
buffer of 1, 2 or 4 bytes; Node's `writeUInt8/16/32BE` throw a range error
when the value does not fit, and any other width hits the `default: throw`
branch. -/
def numToBytes (value bytes : Nat) : Except JsErr (List Nat) :=
  match bytes with
  | 1 => if value < 2 ^ 8 then .ok [value] else .error .range
  | 2 => if value < 2 ^ 16 then .ok (beBytes2 value) else .error .range
  | 4 => if value < 2 ^ 32 then .ok (beBytes4 value) else .error .range
  | _ => .error .unsupportedWidth

def MAGIC_BUFFER : List Nat := [0x21, 0x31]
def MAX_4_BYTES_BUFFER : List Nat := List.replicate 4 0xff
def MAX_4_BYTES_NUMBER : Nat := 0xffffffff
def MAX_16_BYTES_BUFFER : List Nat := List.replicate 16 0xff
def MIN_16_BYTES_BUFFER : List Nat := List.replicate 16 0x00
def DEFAULT_UNKNOWN_BUFFER : List Nat := List.replicate 4 0x00
def HEADER_BYTES : Nat := 32

/-- The fields of one on-wire frame (`PacketImpl` of `packet.ts`, latest
revision). -/
structure PacketStruct where
  magicNumber : List Nat
  packetLength : Nat
  unknown1 : List Nat
  deviceId : Nat
  stamp : Nat
  checksum : List Nat
  data : List Nat
deriving DecidableEq, Repr

/-- `PacketImpl.raw`: serialization to wire bytes; note the source uses
the `MAGIC_BUFFER` constant, not the stored magic field.  The embedded
`numToBytes` calls surface Node range errors for oversized fields. -/
def PacketStruct.raw (p : PacketStruct) : Except JsErr (List Nat) := do
  let lenB ← numToBytes p.packetLength 2
  let didB ← numToBytes p.deviceId 4
  let stB ← numToBytes p.stamp 4
  .ok (MAGIC_BUFFER ++ lenB ++ p.unknown1 ++ didB ++ stB ++ p.checksum ++ p.data)

namespace PacketImpl

/-- The `PacketImpl` constructor of `packet.ts` (latest revision): four
`Preconditions.checkArgument` guards, in source order; the fourth
evaluates `this.raw`. -/
def make (magicNumber : List Nat) (packetLength : Nat) (unknown1 : List Nat)
    (deviceId stamp : Nat) (checksum data : List Nat) : Except JsErr PacketStruct :=
  if magicNumber = MAGIC_BUFFER ∧ magicNumber.length = 2 then
    if unknown1.length = 4 then
      if checksum.length = 16 then do
        let r ← PacketStruct.raw ⟨magicNumber, packetLength, unknown1, deviceId, stamp, checksum, data⟩
        if packetLength = r.length then
          .ok ⟨magicNumber, packetLength, unknown1, deviceId, stamp, checksum, data⟩
        else .error .lenMismatch
      else .error .badChecksumLen
    else .error .badUnknown1Len
  else .error .badMagic

/-- `PacketImpl.from` (latest revision): slices the fixed-layout header
out of the datagram, then invokes the checking constructor.  (`from` is a
Lean keyword, hence the name `fromBuffer`.) -/
def fromBuffer (buffer : List Nat) : Except JsErr PacketStruct := do
  let packetLength ← readUInt16BE (jsSlice buffer 2 4)
  let deviceid ← readUInt32BE (jsSlice buffer 8 12)
  let stamp ← readUInt32BE (jsSlice buffer 12 16)
  make (jsSlice buffer 0 2) packetLength (jsSlice buffer 4 8) deviceid stamp
    (jsSlice buffer 16 32) (buffer.drop 32)

end PacketImpl

/-- The declared 16-bit big-endian length field of a frame, as the parser
reads it (bytes 2..3). -/
def declaredLength (buffer : List Nat) : Except JsErr Nat :=
  readUInt16BE (jsSlice buffer 2 4)

/-- The external Node `crypto` primitives, abstracted: an MD5-style digest
and the AES-128-CBC encrypt/decrypt pair (key, iv, data). -/
structure Crypto where
  digest : List Nat → List Nat
  encrypt : List Nat → List Nat → List Nat → List Nat
  decrypt : List Nat → List Nat → List Nat → List Nat

/-- The `md5` helper of `crypto_utils.ts`: digest of the in-order
concatenation of a sequence of buffers. -/
def md5 (c : Crypto) (bufferList : List (List Nat)) : List Nat :=
  c.digest bufferList.flatten

/-- Logical requests (`packet.ts`): handshake carries the all-`0xFF`
sentinels and empty data. -/
inductive MiIORequest where
  | handshake
  | normal (deviceId stamp : Nat) (data : List Nat)
deriving DecidableEq, Repr

def MiIORequest.deviceId : MiIORequest → Nat
  | .handshake => MAX_4_BYTES_NUMBER
  | .normal d _ _ => d

def MiIORequest.stamp : MiIORequest → Nat
  | .handshake => MAX_4_BYTES_NUMBER
  | .normal _ s _ => s

def MiIORequest.data : MiIORequest → List Nat
  | .handshake => []
  | .normal _ _ p => p

def MiIORequest.isHandshakeType : MiIORequest → Bool
  | .handshake => true
  | .normal _ _ _ => false

/-- Logical responses (`packet.ts`). -/
inductive MiIOResponse where
  | handshake (deviceId stamp : Nat) (data : List Nat)
  | normal (deviceId stamp : Nat) (data : List Nat)
deriving DecidableEq, Repr

namespace RequestSerializer

/-- `RequestSerializer.encryptData` (`serializer.ts`): empty data stays
empty; otherwise AES-128-CBC with `key = md5(token)` and
`iv = md5(key, token)`. -/
def encryptData (c : Crypto) (token data : List Nat) : List Nat :=
  if data.length = 0 then []
  else
    let key := md5 c [token]
    let iv := md5 c [key, token]
    c.encrypt key iv data

/-- `RequestSerializer.calculateChecksum`: MD5 over the 16-byte header
prefix, then the token, then the ciphertext (dropped from the list when
empty, which leaves the concatenation unchanged). -/
def calculateChecksum (c : Crypto) (token : List Nat) (req : MiIORequest)
    (encryptedData : List Nat) : Except JsErr (List Nat) := do
  let unknown1 := if req.isHandshakeType then MAX_4_BYTES_BUFFER else DEFAULT_UNKNOWN_BUFFER
  let lenB ← numToBytes (HEADER_BYTES + encryptedData.length) 2
  let didB ← numToBytes req.deviceId 4
  let stB ← numToBytes req.stamp 4
  let metadata := MAGIC_BUFFER ++ lenB ++ unknown1 ++ didB ++ stB
  .ok (md5 c (if encryptedData.length = 0 then [metadata, token] else [metadata, token, encryptedData]))

/-- `RequestSerializer.serialize`: encrypts, picks the sentinel or the
computed checksum, and builds a `PacketImpl` through the checking
constructor. -/
def serialize (c : Crypto) (token : List Nat) (req : MiIORequest) : Except JsErr PacketStruct := do
  let encryptedData := encryptData c token req.data
  let unknown1 := if req.isHandshakeType then MAX_4_BYTES_BUFFER else DEFAULT_UNKNOWN_BUFFER
  let checksum ← if req.isHandshakeType then pure MAX_16_BYTES_BUFFER
    else calculateChecksum c token req encryptedData
  PacketImpl.make MAGIC_BUFFER (HEADER_BYTES + encryptedData.length) unknown1
    req.deviceId req.stamp checksum encryptedData

end RequestSerializer

namespace ResponseDeserializer

/-- `ResponseDeserializer.isChecksumValid`: recomputes the MD5 over the
re-encoded 16-byte header prefix, the token and the payload, and compares
with the stored checksum. -/
def isChecksumValid (c : Crypto) (token : List Nat) (p : PacketStruct) : Except JsErr Bool := do
  let lenB ← numToBytes p.packetLength 2
  let didB ← numToBytes p.deviceId 4
  let stB ← numToBytes p.stamp 4
  let header := p.magicNumber ++ lenB ++ p.unknown1 ++ didB ++ stB
  let localChecksum :=
    md5 c (if 0 < p.data.length then [header, token, p.data] else [header, token])
  .ok (p.checksum == localChecksum)

/-- `ResponseDeserializer.decryptedData`: empty payloads pass through,
otherwise AES-128-CBC decryption with the token-derived key and IV. -/
def decryptedData (c : Crypto) (token data : List Nat) : List Nat :=
  if data.length = 0 then data
  else
    let key := md5 c [token]
    let iv := md5 c [md5 c [token], token]
    c.decrypt key iv data

/-- `ResponseDeserializer.isHandshake`: all-zero `unknown1`, header-only
length and all-zero checksum. -/
def isHandshake (p : PacketStruct) : Bool :=
  p.unknown1 == DEFAULT_UNKNOWN_BUFFER && p.packetLength == HEADER_BYTES &&
    p.checksum == MIN_16_BYTES_BUFFER

/-- `ResponseDeserializer.deserialize`: handshake replies skip checksum
verification and decryption; all other frames must pass the checksum
precondition before the payload is decrypted. -/
def deserialize (c : Crypto) (token : List Nat) (p : PacketStruct) : Except JsErr MiIOResponse :=
  if isHandshake p then
    .ok (.handshake p.deviceId p.stamp (decryptedData c token p.data))
  else do
    let valid ← isChecksumValid c token p
    if valid then .ok (.normal p.deviceId p.stamp (decryptedData c token p.data))
    else .error .checksumFailed

end ResponseDeserializer

/-- The full outbound-inbound pipeline on one host: serialize a normal
request, turn it into wire bytes, parse those bytes and deserialize the
parsed packet. -/
def roundTrip (c : Crypto) (token : List Nat) (d s : Nat) (plaintext : List Nat) :
    Except JsErr MiIOResponse := do
  let pkt ← RequestSerializer.serialize c token (.normal d s plaintext)
  let bytes ← PacketStruct.raw pkt
  let parsed ← PacketImpl.fromBuffer bytes
  ResponseDeserializer.deserialize c token parsed

def DEFAULT_TIMEOUT : Nat := 10000

/-- JavaScript falsiness of a `number | undefined` field: `undefined` and
`0` are falsy. -/
def jsFalsy : Option Nat → Bool
  | none => true
  | some v => v == 0

/-- The handshake-related fields of `MiIOClient` (`client.ts`):
`deviceId`, `deviceStamp` and `handshakeTimestamp` start `undefined`. -/
structure ClientState where
  counter : Nat
  deviceId : Option Nat
  deviceStamp : Option Nat
  handshakeTimestamp : Option Nat
deriving DecidableEq, Repr

/-- The client configuration (`config.handshakeTimeout`). -/
structure ClientConfig where
  handshakeTimeout : Option Nat
deriving DecidableEq, Repr

/-- The `deviceId/stamp` reported by a handshake reply. -/
structure HandshakeReplyData where
  deviceId : Nat
  stamp : Nat
deriving DecidableEq, Repr

/-- The record returned by `MiIOClient.getRequestMetadata`. -/
structure RequestMetadata where
  deviceId : Nat
  deviceStamp : Nat
  handshakeTimestamp : Nat
deriving DecidableEq, Repr

namespace MiIOClient

/-- The guard of `MiIOClient.getRequestMetadata`:
`!this.handshakeTimestamp || !this.deviceId || !this.deviceStamp ||
Date.now() - this.handshakeTimestamp > (config.handshakeTimeout ?? DEFAULT_TIMEOUT)`. -/
def needsHandshake (cfg : ClientConfig) (st : ClientState) (now : Nat) : Bool :=
  jsFalsy st.handshakeTimestamp || jsFalsy st.deviceId || jsFalsy st.deviceStamp ||
    decide (cfg.handshakeTimeout.getD DEFAULT_TIMEOUT < now - st.handshakeTimestamp.getD 0)

/-- `MiIOClient.getRequestMetadata`, with the effects made explicit: `now`
is `Date.now()` at the guard, and when the guard fires the handshake
reply `reply` arrives and `replyTime` is `Date.now()` at its completion.
Returns the updated state, the returned metadata record, and whether a
handshake request was sent. -/
def getRequestMetadata (cfg : ClientConfig) (st : ClientState) (now : Nat)
    (reply : HandshakeReplyData) (replyTime : Nat) :
    ClientState × RequestMetadata × Bool :=
  if needsHandshake cfg st now then
    (⟨st.counter, some reply.deviceId, some reply.stamp, some replyTime⟩,
      ⟨reply.deviceId, reply.stamp, replyTime⟩, true)
  else
    (st, ⟨st.deviceId.getD 0, st.deviceStamp.getD 0, st.handshakeTimestamp.getD 0⟩, false)

/-- The stamp written into a normal request by `MiIOClient.send`:
`Math.floor((Date.now() - handshakeTimestamp) * 0.001) + deviceStamp`.
The float multiplication by `0.001` followed by `floor` is modelled as
exact integer division by 1000, which agrees with the IEEE-754 double
computation for all realistic millisecond values. -/
def sendStamp (meta : RequestMetadata) (now : Nat) : Nat :=
  (now - meta.handshakeTimestamp) / 1000 + meta.deviceStamp

end MiIOClient

/-- The closure state of `utils/retry.ts`: `let quota = initialQuota` is
declared OUTSIDE the returned async function, so the remaining quota is
shared by every call made through the same wrapped function. -/
structure RetryState where
  quota : Nat
deriving DecidableEq, Repr

/-- The `while (quota > 0)` loop body of `retry`.  `f` gives the outcome
of each successive attempt (each attempt re-runs the wrapped body, which
in `MiIOClient.send` allocates a fresh request id); `lastError` is the
per-call `let lastError` variable.  Returns the call result (`.error e`
models the final `throw` carrying the optional underlying error), the
remaining quota and the number of failed attempts consumed. -/
def retryLoop (f : Nat → Except ε α) (quota attempt : Nat) (lastError : Option ε) :
    Except (Option ε) α × Nat × Nat :=
  match quota with
  | 0 => (.error lastError, 0, attempt)
  | q + 1 =>
    match f (attempt + 1) with
    | .ok a => (.ok a, q + 1, attempt)
    | .error e => retryLoop f q (attempt + 1) (some e)

/-- One invocation of the function returned by `retry`: starts with the
shared closure quota and a fresh `lastError`. -/
def retryCall (f : Nat → Except ε α) (st : RetryState) :
    Except (Option ε) α × RetryState × Nat :=
  match retryLoop f st.quota 0 none with
  | (r, q, n) => (r, ⟨q⟩, n)

/-- The error kinds relevant to a failed send attempt. -/
inductive SendErr where
  | timeout
deriving DecidableEq, Repr

/-- One entry of the client's wait queue; `tag` stands for the one-shot
`resolve`/`timeout` pair owned by the entry. -/
structure WaitingReq where
  requestId : Option Nat
  tag : Nat
deriving DecidableEq, Repr

/-- JavaScript `Array.prototype.findIndex`: index of the first match, or
`-1`. -/
def jsFindIndex (p : α → Bool) (l : List α) : Int :=
  match l.findIdx? p with
  | some i => (i : Int)
  | none => -1

/-- `remove` from `utils/array_utils.ts`: copies the array without the
item at `index`, throwing when the index is out of bounds. -/
def remove (array : List α) (index : Nat) : Except JsErr (List α) :=
  if index < array.length then .ok (array.take index ++ array.drop (index + 1))
  else .error .outOfBound

/-- `MiIOClient.removeFromWaitQueue`: looks up the pending entry whose
`requestId` equals the reply id, but guards the result with `if (index)`
- truthy for every index other than `0`, including valid positive
indices.  Returns the removed entry (if any), the remaining queue, and
whether the no-pending-promise warning was logged.  The inbound handler
resolves the returned entry and clears its timeout; when `none` is
returned the datagram is dropped. -/
def removeFromWaitQueue (queue : List WaitingReq) (requestId : Option Nat) :
    Option WaitingReq × List WaitingReq × Bool :=
  let index := jsFindIndex (fun e => e.requestId == requestId) queue
  if index ≠ 0 then (none, queue, true)
  else
    match queue with
    | [] => (none, queue, true)
    | e :: rest => (some e, rest, false)

namespace MD5

/-- 32-bit truncation. -/
def trunc (x : Nat) : Nat := x % 2 ^ 32

/-- 32-bit left rotation (operands below `2 ^ 32`). -/
def rotl (x n : Nat) : Nat := (x * 2 ^ n + x / 2 ^ (32 - n)) % 2 ^ 32

def auxF (b c d : Nat) : Nat := (b &&& c) ||| ((0xffffffff ^^^ b) &&& d)
def auxG (b c d : Nat) : Nat := (b &&& d) ||| (c &&& (0xffffffff ^^^ d))
def auxH (b c d : Nat) : Nat := b ^^^ c ^^^ d
def auxI (b c d : Nat) : Nat := c ^^^ (b ||| (0xffffffff ^^^ d))

/-- Per-round shift amounts. -/
def shiftTable : List Nat :=
  [7, 12, 17, 22, 7, 12, 17, 22, 7, 12, 17, 22, 7, 12, 17, 22,
   5, 9, 14, 20, 5, 9, 14, 20, 5, 9, 14, 20, 5, 9, 14, 20,
   4, 11, 16, 23, 4, 11, 16, 23, 4, 11, 16, 23, 4, 11, 16, 23,
   6, 10, 15, 21, 6, 10, 15, 21, 6, 10, 15, 21, 6, 10, 15, 21]

/-- The sine-derived constants of RFC 1321. -/
def sineTable : List Nat :=
  [0xd76aa478, 0xe8c7b756, 0x242070db, 0xc1bdceee,
   0xf57c0faf, 0x4787c62a, 0xa8304613, 0xfd469501,
   0x698098d8, 0x8b44f7af, 0xffff5bb1, 0x895cd7be,
   0x6b901122, 0xfd987193, 0xa679438e, 0x49b40821,
   0xf61e2562, 0xc040b340, 0x265e5a51, 0xe9b6c7aa,
   0xd62f105d, 0x02441453, 0xd8a1e681, 0xe7d3fbc8,
   0x21e1cde6, 0xc33707d6, 0xf4d50d87, 0x455a14ed,
   0xa9e3e905, 0xfcefa3f8, 0x676f02d9, 0x8d2a4c8a,
   0xfffa3942, 0x8771f681, 0x6d9d6122, 0xfde5380c,
   0xa4beea44, 0x4bdecfa9, 0xf6bb4b60, 0xbebfbc70,
   0x289b7ec6, 0xeaa127fa, 0xd4ef3085, 0x04881d05,
   0xd9d4d039, 0xe6db99e5, 0x1fa27cf8, 0xc4ac5665,
   0xf4292244, 0x432aff97, 0xab9423a7, 0xfc93a039,
   0x655b59c3, 0x8f0ccc92, 0xffeff47d, 0x85845dd1,
   0x6fa87e4f, 0xfe2ce6e0, 0xa3014314, 0x4e0811a1,
   0xf7537e82, 0xbd3af235, 0x2ad7d2bb, 0xeb86d391]

/-- Eight little-endian bytes of the 64-bit message bit length. -/
def le8 (v : Nat) : List Nat :=
  [v % 256, v / 2 ^ 8 % 256, v / 2 ^ 16 % 256, v / 2 ^ 24 % 256,
   v / 2 ^ 32 % 256, v / 2 ^ 40 % 256, v / 2 ^ 48 % 256, v / 2 ^ 56 % 256]

/-- Four little-endian bytes of a 32-bit word. -/
def le4 (v : Nat) : List Nat :=
  [v % 256, v / 2 ^ 8 % 256, v / 2 ^ 16 % 256, v / 2 ^ 24 % 256]

/-- RFC 1321 padding: a `0x80` byte, zeros up to 56 mod 64, then the
64-bit little-endian bit length. -/
def pad (msg : List Nat) : List Nat :=
  let len := msg.length
  let zeros := (119 - len % 64) % 64
  msg ++ [0x80] ++ List.replicate zeros 0 ++ le8 (len * 8 % 2 ^ 64)

/-- The sixteen little-endian 32-bit words of one 64-byte block. -/
def toWords (block : List Nat) : List Nat :=
  (List.range 16).map fun i =>
    (jsSlice block (4 * i) (4 * i + 4)).foldr (fun b acc => acc * 256 + b) 0

/-- One of the 64 steps of the compression function. -/
def step (m : List Nat) (st : Nat × Nat × Nat × Nat) (i : Nat) : Nat × Nat × Nat × Nat :=
  match st with
  | (a, b, c, d) =>
    let fg : Nat × Nat :=
      if i < 16 then (auxF b c d, i)
      else if i < 32 then (auxG b c d, (5 * i + 1) % 16)
      else if i < 48 then (auxH b c d, (3 * i + 5) % 16)
      else (auxI b c d, 7 * i % 16)
    let tmp := trunc (a + fg.1 + sineTable.getD i 0 + m.getD fg.2 0)
    (d, trunc (b + rotl tmp (shiftTable.getD i 0)), b, c)

/-- Compression of one 64-byte block into the running state. -/
def processBlock (st : Nat × Nat × Nat × Nat) (block : List Nat) : Nat × Nat × Nat × Nat :=
  let m := toWords block
  match (List.range 64).foldl (step m) st, st with
  | (a, b, c, d), (a0, b0, c0, d0) => (trunc (a + a0), trunc (b + b0), trunc (c + c0), trunc (d + d0))

/-- MD5 of a byte sequence, as the 16-byte digest. -/
def md5bytes (msg : List Nat) : List Nat :=
  let padded := pad msg
  let blockCount := padded.length / 64
  match (List.range blockCount).foldl
      (fun st i => processBlock st (jsSlice padded (64 * i) (64 * i + 64)))
      (0x67452301, 0xefcdab89, 0x98badcfe, 0x10325476) with
  | (a, b, c, d) => le4 a ++ le4 b ++ le4 c ++ le4 d

end MD5

/-- A `Crypto` instance whose digest is the real MD5; the cipher component
is irrelevant to checksum claims and is taken to be the identity. -/
def cryptoMd5 : Crypto := ⟨MD5.md5bytes, fun _ _ d => d, fun _ _ d => d⟩

/-- A trivial `Crypto` instance used to witness theorems whose statements
hold for every digest/cipher: a constant 16-byte digest and an identity
cipher pair. -/
def cryptoTrivial : Crypto := ⟨fun _ => List.replicate 16 0, fun _ _ d => d, fun _ _ d => d⟩

/-! ## Lemmas about the byte primitives -/

theorem length_beBytes2 (v : Nat) : (beBytes2 v).length = 2 := rfl

theorem length_beBytes4 (v : Nat) : (beBytes4 v).length = 4 := rfl

theorem readUInt16BE_beBytes2 (v : Nat) (h : v < 2 ^ 16) :
    readUInt16BE (beBytes2 v) = .ok v := by
  simp only [beBytes2, readUInt16BE, Except.ok.injEq]
  omega

theorem readUInt32BE_beBytes4 (v : Nat) (h : v < 2 ^ 32) :
    readUInt32BE (beBytes4 v) = .ok v := by
  simp only [beBytes4, readUInt32BE, Except.ok.injEq]
  omega

theorem numToBytes_two (v : Nat) (h : v < 2 ^ 16) :
    numToBytes v 2 = .ok (beBytes2 v) := by
  simp only [numToBytes]
  rw [if_pos h]

theorem numToBytes_four (v : Nat) (h : v < 2 ^ 32) :
    numToBytes v 4 = .ok (beBytes4 v) := by
  simp only [numToBytes]
  rw [if_pos h]

theorem exists_pair_of_length_two (l : List Nat) (h : l.length = 2) :
    ∃ a b, l = [a, b] := by
  match l with
  | [] => simp at h
  | [a] => simp at h
  | [a, b] => exact ⟨a, b, rfl⟩
  | a :: b :: c :: t => simp [List.length_cons] at h

theorem exists_quad_of_length_four (l : List Nat) (h : l.length = 4) :
    ∃ a b c d, l = [a, b, c, d] := by
  match l with
  | [] => simp at h
  | [a] => simp at h
  | [a, b] => simp at h
  | [a, b, c] => simp at h
  | [a, b, c, d] => exact ⟨a, b, c, d, rfl⟩
  | a :: b :: c :: d :: e :: t => simp [List.length_cons] at h

/-! ## Decomposition of a buffer into the parser's slices -/

theorem buffer_decompose (b : List Nat) :
    b = jsSlice b 0 2 ++ jsSlice b 2 4 ++ jsSlice b 4 8 ++ jsSlice b 8 12 ++
      jsSlice b 12 16 ++ jsSlice b 16 32 ++ b.drop 32 := by
  simp only [jsSlice, List.drop_zero]
  norm_num
  rw [(by norm_num [List.drop_drop] : b.drop 32 = (b.drop 16).drop 16),
    List.take_append_drop,
    (by norm_num [List.drop_drop] : b.drop 16 = (b.drop 12).drop 4),
    List.take_append_drop,
    (by norm_num [List.drop_drop] : b.drop 12 = (b.drop 8).drop 4),
    List.take_append_drop,
    (by norm_num [List.drop_drop] : b.drop 8 = (b.drop 4).drop 4),
    List.take_append_drop,
    (by norm_num [List.drop_drop] : b.drop 4 = (b.drop 2).drop 2),
    List.take_append_drop,
    List.take_append_drop]

theorem fromBuffer_append (m l2 u d4 s4 ck rest : List Nat)
    (hm : m.length = 2) (hl : l2.length = 2) (hu : u.length = 4)
    (hd4 : d4.length = 4) (hs4 : s4.length = 4) (hck : ck.length = 16) :
    PacketImpl.fromBuffer (m ++ (l2 ++ (u ++ (d4 ++ (s4 ++ (ck ++ rest)))))) = (do
      let pl ← readUInt16BE l2
      let did ← readUInt32BE d4
      let st ← readUInt32BE s4
      PacketImpl.make m pl u did st ck rest) := by
  have d2 : (m ++ (l2 ++ (u ++ (d4 ++ (s4 ++ (ck ++ rest)))))).drop 2 =
      l2 ++ (u ++ (d4 ++ (s4 ++ (ck ++ rest)))) := List.drop_left' hm
  have d4e : (m ++ (l2 ++ (u ++ (d4 ++ (s4 ++ (ck ++ rest)))))).drop 4 =
      u ++ (d4 ++ (s4 ++ (ck ++ rest))) := by
    rw [(by norm_num [List.drop_drop] :
        (m ++ (l2 ++ (u ++ (d4 ++ (s4 ++ (ck ++ rest)))))).drop 4 =
          ((m ++ (l2 ++ (u ++ (d4 ++ (s4 ++ (ck ++ rest)))))).drop 2).drop 2),
      d2, List.drop_left' hl]
  have d8e : (m ++ (l2 ++ (u ++ (d4 ++ (s4 ++ (ck ++ rest)))))).drop 8 =
      d4 ++ (s4 ++ (ck ++ rest)) := by
    rw [(by norm_num [List.drop_drop] :
        (m ++ (l2 ++ (u ++ (d4 ++ (s4 ++ (ck ++ rest)))))).drop 8 =
          ((m ++ (l2 ++ (u ++ (d4 ++ (s4 ++ (ck ++ rest)))))).drop 4).drop 4),
      d4e, List.drop_left' hu]
  have d12e : (m ++ (l2 ++ (u ++ (d4 ++ (s4 ++ (ck ++ rest)))))).drop 12 =
      s4 ++ (ck ++ rest) := by
    rw [(by norm_num [List.drop_drop] :
        (m ++ (l2 ++ (u ++ (d4 ++ (s4 ++ (ck ++ rest)))))).drop 12 =
          ((m ++ (l2 ++ (u ++ (d4 ++ (s4 ++ (ck ++ rest)))))).drop 8).drop 4),
      d8e, List.drop_left' hd4]
  have d16e : (m ++ (l2 ++ (u ++ (d4 ++ (s4 ++ (ck ++ rest)))))).drop 16 =
      ck ++ rest := by
    rw [(by norm_num [List.drop_drop] :
        (m ++ (l2 ++ (u ++ (d4 ++ (s4 ++ (ck ++ rest)))))).drop 16 =
          ((m ++ (l2 ++ (u ++ (d4 ++ (s4 ++ (ck ++ rest)))))).drop 12).drop 4),
      d12e, List.drop_left' hs4]
  have d32e : (m ++ (l2 ++ (u ++ (d4 ++ (s4 ++ (ck ++ rest)))))).drop 32 = rest := by
    rw [(by norm_num [List.drop_drop] :
        (m ++ (l2 ++ (u ++ (d4 ++ (s4 ++ (ck ++ rest)))))).drop 32 =
          ((m ++ (l2 ++ (u ++ (d4 ++ (s4 ++ (ck ++ rest)))))).drop 16).drop 16),
      d16e, List.drop_left' hck]
  have e0 : jsSlice (m ++ (l2 ++ (u ++ (d4 ++ (s4 ++ (ck ++ rest)))))) 0 2 = m := by
    simp only [jsSlice, List.drop_zero]
    norm_num
    exact List.take_left' hm
  have e2 : jsSlice (m ++ (l2 ++ (u ++ (d4 ++ (s4 ++ (ck ++ rest)))))) 2 4 = l2 := by
    simp only [jsSlice]
    norm_num
    rw [d2]
    exact List.take_left' hl
  have e4 : jsSlice (m ++ (l2 ++ (u ++ (d4 ++ (s4 ++ (ck ++ rest)))))) 4 8 = u := by
    simp only [jsSlice]
    norm_num
    rw [d4e]
    exact List.take_left' hu
  have e8 : jsSlice (m ++ (l2 ++ (u ++ (d4 ++ (s4 ++ (ck ++ rest)))))) 8 12 = d4 := by
    simp only [jsSlice]
    norm_num
    rw [d8e]
    exact List.take_left' hd4
  have e12 : jsSlice (m ++ (l2 ++ (u ++ (d4 ++ (s4 ++ (ck ++ rest)))))) 12 16 = s4 := by
    simp only [jsSlice]
    norm_num
    rw [d12e]
    exact List.take_left' hs4
  have e16 : jsSlice (m ++ (l2 ++ (u ++ (d4 ++ (s4 ++ (ck ++ rest)))))) 16 32 = ck := by
    simp only [jsSlice]
    norm_num
    rw [d16e]
    exact List.take_left' hck
  simp only [PacketImpl.fromBuffer, e0, e2, e4, e8, e12, e16, d32e]

theorem raw_eq (p : PacketStruct) (hpl : p.packetLength < 2 ^ 16)
    (hdid : p.deviceId < 2 ^ 32) (hst : p.stamp < 2 ^ 32) :
    PacketStruct.raw p = .ok (MAGIC_BUFFER ++ (beBytes2 p.packetLength ++ (p.unknown1 ++
      (beBytes4 p.deviceId ++ (beBytes4 p.stamp ++ (p.checksum ++ p.data)))))) := by
  simp only [PacketStruct.raw, numToBytes_two p.packetLength hpl,
    numToBytes_four p.deviceId hdid, numToBytes_four p.stamp hst]
  simp [Bind.bind, Except.bind, List.append_assoc]

theorem raw_ok_elim (p : PacketStruct) (r : List Nat) (h : PacketStruct.raw p = .ok r) :
    p.packetLength < 2 ^ 16 ∧ p.deviceId < 2 ^ 32 ∧ p.stamp < 2 ^ 32 ∧
      r = MAGIC_BUFFER ++ (beBytes2 p.packetLength ++ (p.unknown1 ++
        (beBytes4 p.deviceId ++ (beBytes4 p.stamp ++ (p.checksum ++ p.data))))) := by
  by_cases hpl : p.packetLength < 2 ^ 16
  · by_cases hdid : p.deviceId < 2 ^ 32
    · by_cases hst : p.stamp < 2 ^ 32
      · rw [raw_eq p hpl hdid hst] at h
        injection h with h
        exact ⟨hpl, hdid, hst, h.symm⟩
      · simp only [PacketStruct.raw, numToBytes] at h
        rw [if_pos hpl, if_pos hdid, if_neg hst] at h
        simp [Bind.bind, Except.bind] at h
    · simp only [PacketStruct.raw, numToBytes] at h
      rw [if_pos hpl, if_neg hdid] at h
      simp [Bind.bind, Except.bind] at h
  · simp only [PacketStruct.raw, numToBytes] at h
    rw [if_neg hpl] at h
    simp [Bind.bind, Except.bind] at h

theorem raw_length (p : PacketStruct) (r : List Nat) (h : PacketStruct.raw p = .ok r) :
    r.length = 12 + p.unknown1.length + p.checksum.length + p.data.length := by
  obtain ⟨-, -, -, hr⟩ := raw_ok_elim p r h
  subst hr
  simp [MAGIC_BUFFER, beBytes2, beBytes4]
  omega

theorem make_ok (pl did st : Nat) (u ck data : List Nat)
    (hu : u.length = 4) (hck : ck.length = 16) (hpl16 : pl < 2 ^ 16)
    (hdid : did < 2 ^ 32) (hst : st < 2 ^ 32) (hlen : pl = 32 + data.length) :
    PacketImpl.make MAGIC_BUFFER pl u did st ck data =
      .ok ⟨MAGIC_BUFFER, pl, u, did, st, ck, data⟩ := by
  unfold PacketImpl.make
  rw [if_pos ⟨rfl, rfl⟩, if_pos hu, if_pos hck,
    raw_eq ⟨MAGIC_BUFFER, pl, u, did, st, ck, data⟩ hpl16 hdid hst]
  have hr : (MAGIC_BUFFER ++ (beBytes2 pl ++ (u ++ (beBytes4 did ++
      (beBytes4 st ++ (ck ++ data)))))).length = 32 + data.length := by
    simp [MAGIC_BUFFER, beBytes2, beBytes4, hu, hck]
    omega
  simp only [Bind.bind, Except.bind, hr]
  rw [if_pos hlen]

theorem make_ok_elim (mg : List Nat) (pl : Nat) (u : List Nat) (did st : Nat)
    (ck data : List Nat) (p : PacketStruct)
    (h : PacketImpl.make mg pl u did st ck data = .ok p) :
    p = ⟨mg, pl, u, did, st, ck, data⟩ ∧ mg = MAGIC_BUFFER ∧ u.length = 4 ∧
      ck.length = 16 ∧ pl = 32 + data.length ∧ pl < 2 ^ 16 ∧
      did < 2 ^ 32 ∧ st < 2 ^ 32 := by
  unfold PacketImpl.make at h
  by_cases h1 : mg = MAGIC_BUFFER ∧ mg.length = 2
  · rw [if_pos h1] at h
    by_cases h2 : u.length = 4
    · rw [if_pos h2] at h
      by_cases h3 : ck.length = 16
      · rw [if_pos h3] at h
        cases hraw : PacketStruct.raw ⟨mg, pl, u, did, st, ck, data⟩ with
        | error e => rw [hraw] at h; simp [Bind.bind, Except.bind] at h
        | ok r =>
          rw [hraw] at h
          obtain ⟨hpl16, hdid, hst, -⟩ := raw_ok_elim _ _ hraw
          have hrlen := raw_length _ _ hraw
          simp only at hrlen hpl16 hdid hst
          simp only [Bind.bind, Except.bind] at h
          by_cases h4 : pl = r.length
          · rw [if_pos h4] at h
            injection h with h
            exact ⟨h.symm, h1.1, h2, h3, by omega, hpl16, hdid, hst⟩
          · rw [if_neg h4] at h; simp at h
      · rw [if_neg h3] at h; simp at h
    · rw [if_neg h2] at h; simp at h
  · rw [if_neg h1] at h; simp at h

theorem fromBuffer_raw (p : PacketStruct) (hm : p.magicNumber = MAGIC_BUFFER)
    (hu : p.unknown1.length = 4) (hck : p.checksum.length = 16)
    (hlen : p.packetLength = 32 + p.data.length)
    (hpl16 : p.packetLength < 2 ^ 16) (hdid : p.deviceId < 2 ^ 32)
    (hst : p.stamp < 2 ^ 32) (r : List Nat) (hr : PacketStruct.raw p = .ok r) :
    PacketImpl.fromBuffer r = .ok p := by
  obtain ⟨-, -, -, hrform⟩ := raw_ok_elim p r hr
  subst hrform
  rw [fromBuffer_append MAGIC_BUFFER (beBytes2 p.packetLength) p.unknown1
    (beBytes4 p.deviceId) (beBytes4 p.stamp) p.checksum p.data rfl
    (length_beBytes2 _) hu (length_beBytes4 _) (length_beBytes4 _) hck,
    readUInt16BE_beBytes2 _ hpl16, readUInt32BE_beBytes4 _ hdid,
    readUInt32BE_beBytes4 _ hst]
  simp only [Bind.bind, Except.bind]
  rw [make_ok p.packetLength p.deviceId p.stamp p.unknown1 p.checksum p.data
    hu hck hpl16 hdid hst hlen]
  cases p
  simp_all

theorem fromBuffer_ok_facts (b : List Nat) (p : PacketStruct)
    (h : PacketImpl.fromBuffer b = .ok p) :
    p.magicNumber = MAGIC_BUFFER ∧ p.unknown1.length = 4 ∧ p.checksum.length = 16 ∧
      p.packetLength = 32 + p.data.length ∧ p.packetLength < 2 ^ 16 ∧
      p.deviceId < 2 ^ 32 ∧ p.stamp < 2 ^ 32 := by
  unfold PacketImpl.fromBuffer at h
  cases h1 : readUInt16BE (jsSlice b 2 4) with
  | error e => rw [h1] at h; simp [Bind.bind, Except.bind] at h
  | ok pl =>
    rw [h1] at h
    cases h2 : readUInt32BE (jsSlice b 8 12) with
    | error e => rw [h2] at h; simp [Bind.bind, Except.bind] at h
    | ok did =>
      rw [h2] at h
      cases h3 : readUInt32BE (jsSlice b 12 16) with
      | error e => rw [h3] at h; simp [Bind.bind, Except.bind] at h
      | ok st =>
        rw [h3] at h
        simp only [Bind.bind, Except.bind] at h
        obtain ⟨hp, hmg, hu, hck, hlen, hpl16, hdid, hst⟩ :=
          make_ok_elim _ _ _ _ _ _ _ _ h
        subst hp
        exact ⟨hmg, hu, hck, hlen, hpl16, hdid, hst⟩

theorem md5_one (c : Crypto) (a : List Nat) : md5 c [a] = c.digest a := by
  simp [md5]

theorem md5_two (c : Crypto) (a b : List Nat) : md5 c [a, b] = c.digest (a ++ b) := by
  simp [md5]

theorem md5_three (c : Crypto) (a b d : List Nat) :
    md5 c [a, b, d] = c.digest (a ++ (b ++ d)) := by
  simp [md5]

theorem encryptData_eq (c : Crypto) (token p : List Nat) (hp : p ≠ []) :
    RequestSerializer.encryptData c token p =
      c.encrypt (c.digest token) (c.digest (c.digest token ++ token)) p := by
  have hlen : ¬p.length = 0 := by simpa [List.length_eq_zero] using hp
  simp [RequestSerializer.encryptData, hlen, md5_one, md5_two]

theorem calcChecksum_normal (c : Crypto) (token : List Nat) (d s : Nat)
    (p cipher : List Nat) (hd : d < 2 ^ 32) (hs : s < 2 ^ 32)
    (hlen : 32 + cipher.length < 2 ^ 16) :
    RequestSerializer.calculateChecksum c token (.normal d s p) cipher =
      .ok (c.digest (MAGIC_BUFFER ++ (beBytes2 (32 + cipher.length) ++
        (DEFAULT_UNKNOWN_BUFFER ++ (beBytes4 d ++ (beBytes4 s ++
          (token ++ cipher))))))) := by
  unfold RequestSerializer.calculateChecksum
  simp only [MiIORequest.isHandshakeType, MiIORequest.deviceId, MiIORequest.stamp,
    HEADER_BYTES, Bool.false_eq_true, if_false,
    numToBytes_two _ hlen, numToBytes_four _ hd, numToBytes_four _ hs,
    Bind.bind, Except.bind]
  by_cases hc : cipher.length = 0
  · have hnil : cipher = [] := List.length_eq_zero.mp hc
    subst hnil
    simp [md5, List.append_assoc]
  · rw [if_neg hc]
    simp [md5, List.append_assoc]

theorem serialize_normal_ok (c : Crypto) (token : List Nat) (d s : Nat)
    (p cipher : List Nat) (hp : p ≠ [])
    (hcipher : cipher = c.encrypt (c.digest token) (c.digest (c.digest token ++ token)) p)
    (hdig : ∀ x, (c.digest x).length = 16)
    (hd : d < 2 ^ 32) (hs : s < 2 ^ 32) (hlen : 32 + cipher.length < 2 ^ 16) :
    RequestSerializer.serialize c token (.normal d s p) =
      .ok ⟨MAGIC_BUFFER, 32 + cipher.length, DEFAULT_UNKNOWN_BUFFER, d, s,
        c.digest (MAGIC_BUFFER ++ (beBytes2 (32 + cipher.length) ++
          (DEFAULT_UNKNOWN_BUFFER ++ (beBytes4 d ++ (beBytes4 s ++
            (token ++ cipher)))))), cipher⟩ := by
  have henc : RequestSerializer.encryptData c token p = cipher :=
    (encryptData_eq c token p hp).trans hcipher.symm
  unfold RequestSerializer.serialize
  simp only [MiIORequest.data, MiIORequest.isHandshakeType, Bool.false_eq_true,
    if_false, henc, calcChecksum_normal c token d s p cipher hd hs hlen,
    Bind.bind, Except.bind, HEADER_BYTES, MiIORequest.deviceId, MiIORequest.stamp]
  rw [make_ok (32 + cipher.length) d s DEFAULT_UNKNOWN_BUFFER _ cipher rfl
    (hdig _) hlen hd hs rfl]

theorem isHandshake_iff (p : PacketStruct) :
    ResponseDeserializer.isHandshake p = true ↔
      (p.unknown1 = DEFAULT_UNKNOWN_BUFFER ∧ p.packetLength = 32 ∧
        p.checksum = MIN_16_BYTES_BUFFER) := by
  simp [ResponseDeserializer.isHandshake, HEADER_BYTES, and_assoc]

theorem decryptedData_eq (c : Crypto) (token data : List Nat) :
    ResponseDeserializer.decryptedData c token data =
      if data.length = 0 then data
      else c.decrypt (c.digest token) (c.digest (c.digest token ++ token)) data := by
  simp [ResponseDeserializer.decryptedData, md5_one, md5_two]

theorem isChecksumValid_eq (c : Crypto) (token : List Nat) (p : PacketStruct)
    (hpl : p.packetLength < 2 ^ 16) (hdid : p.deviceId < 2 ^ 32)
    (hst : p.stamp < 2 ^ 32) :
    ResponseDeserializer.isChecksumValid c token p =
      .ok (p.checksum == c.digest (p.magicNumber ++ (beBytes2 p.packetLength ++
        (p.unknown1 ++ (beBytes4 p.deviceId ++ (beBytes4 p.stamp ++
          (token ++ p.data))))))) := by
  unfold ResponseDeserializer.isChecksumValid
  simp only [numToBytes_two _ hpl, numToBytes_four _ hdid, numToBytes_four _ hst,
    Bind.bind, Except.bind]
  by_cases hdata : 0 < p.data.length
  · rw [if_pos hdata]
    simp [md5, List.append_assoc]
  · rw [if_neg hdata]
    have hnil : p.data = [] := by
      cases hd : p.data
      · rfl
      · rw [hd] at hdata; simp at hdata
    simp [md5, hnil, List.append_assoc]

theorem deserialize_eq (c : Crypto) (token : List Nat) (p : PacketStruct)
    (hpl : p.packetLength < 2 ^ 16) (hdid : p.deviceId < 2 ^ 32)
    (hst : p.stamp < 2 ^ 32) :
    ResponseDeserializer.deserialize c token p =
      if ResponseDeserializer.isHandshake p then
        .ok (.handshake p.deviceId p.stamp (ResponseDeserializer.decryptedData c token p.data))
      else if p.checksum = c.digest (p.magicNumber ++ (beBytes2 p.packetLength ++
          (p.unknown1 ++ (beBytes4 p.deviceId ++ (beBytes4 p.stamp ++
            (token ++ p.data)))))) then
        .ok (.normal p.deviceId p.stamp (ResponseDeserializer.decryptedData c token p.data))
      else .error .checksumFailed := by
  unfold ResponseDeserializer.deserialize
  by_cases hh : ResponseDeserializer.isHandshake p
  · rw [if_pos hh, if_pos hh]
  · rw [if_neg hh, if_neg hh]
    rw [isChecksumValid_eq c token p hpl hdid hst]
    simp only [Bind.bind, Except.bind, beq_iff_eq]

/-! ## Claim theorems -/

/-- C1: for every normal request with device id `d`, stamp `s`, non-empty
plaintext `p` and 16-byte token, the serialized packet carries ciphertext
`encrypt(key = MD5(token), iv = MD5(key || token), p)` and its checksum
field is the digest of `magic || length_be16 || 0x00000000 || d_be32 ||
s_be32 || token || ciphertext` - the token directly follows the 16-byte
header prefix with nothing in between.  The bounds make the embedded
Node range checks pass; the digest-length hypothesis reflects MD5. -/
theorem claim_C1_normal_checksum (c : Crypto) (token : List Nat) (d s : Nat)
    (p : List Nat) (_htok : token.length = 16) (hp : p ≠ [])
    (hdig : ∀ x, (c.digest x).length = 16) (hd : d < 2 ^ 32) (hs : s < 2 ^ 32)
    (hlen : 32 + (c.encrypt (c.digest token) (c.digest (c.digest token ++ token)) p).length < 2 ^ 16) :
    RequestSerializer.serialize c token (.normal d s p) =
      .ok ⟨MAGIC_BUFFER,
        32 + (c.encrypt (c.digest token) (c.digest (c.digest token ++ token)) p).length,
        DEFAULT_UNKNOWN_BUFFER, d, s,
        c.digest (MAGIC_BUFFER ++ (beBytes2 (32 +
          (c.encrypt (c.digest token) (c.digest (c.digest token ++ token)) p).length) ++
          (DEFAULT_UNKNOWN_BUFFER ++ (beBytes4 d ++ (beBytes4 s ++ (token ++
            c.encrypt (c.digest token) (c.digest (c.digest token ++ token)) p)))))),
        c.encrypt (c.digest token) (c.digest (c.digest token ++ token)) p⟩ :=
  serialize_normal_ok c token d s p _ hp rfl hdig hd hs hlen

/-- Witness for C1 at a concrete input. -/
theorem claim_C1_normal_checksum_witness :
    RequestSerializer.serialize cryptoTrivial (List.replicate 16 0) (.normal 5 10 [123]) =
      .ok ⟨MAGIC_BUFFER, 33, DEFAULT_UNKNOWN_BUFFER, 5, 10, List.replicate 16 0, [123]⟩ :=
  (claim_C1_normal_checksum cryptoTrivial (List.replicate 16 0) 5 10 [123]
    (by decide) (by decide) (fun x => rfl) (by decide) (by decide) (by decide)).trans rfl

/-- C6: for every well-formed packet (valid magic, consistent length
field, wire-width fields), parsing the serialized bytes yields the same
packet field by field. -/
theorem claim_C6_parse_serialize_roundtrip (p : PacketStruct)
    (hm : p.magicNumber = MAGIC_BUFFER) (hu : p.unknown1.length = 4)
    (hck : p.checksum.length = 16) (hlen : p.packetLength = 32 + p.data.length)
    (hpl16 : p.packetLength < 2 ^ 16) (hdid : p.deviceId < 2 ^ 32)
    (hst : p.stamp < 2 ^ 32) (r : List Nat) (hr : PacketStruct.raw p = .ok r) :
    PacketImpl.fromBuffer r = .ok p :=
  fromBuffer_raw p hm hu hck hlen hpl16 hdid hst r hr

/-- Witness for C6 at a concrete 32-byte handshake-reply frame. -/
theorem claim_C6_witness :
    PacketImpl.fromBuffer [0x21, 0x31, 0, 32, 0, 0, 0, 0, 0, 0, 0, 5, 0, 0, 0, 10,
        0, 0, 0, 0, 0, 0, 0, 0, 0, 0, 0, 0, 0, 0, 0, 0] =
      .ok ⟨MAGIC_BUFFER, 32, List.replicate 4 0, 5, 10, List.replicate 16 0, []⟩ :=
  claim_C6_parse_serialize_roundtrip
    ⟨MAGIC_BUFFER, 32, List.replicate 4 0, 5, 10, List.replicate 16 0, []⟩
    rfl rfl rfl (by decide) (by decide) (by decide) (by decide) _ (by rfl)

/-- C9 (amended): the outbound checksum is the digest of the 16-byte
header prefix followed directly by the token and ciphertext; the
"header with zeroed checksum" byte sequence of the claim is a different
digest input (16 extra zero bytes sit between the prefix and the token),
so the two constructions are not the same. -/
theorem claim_C9_amended (c : Crypto) (token : List Nat) (d s : Nat)
    (p cipher : List Nat) (hp : p ≠ [])
    (hcipher : cipher = c.encrypt (c.digest token) (c.digest (c.digest token ++ token)) p)
    (hdig : ∀ x, (c.digest x).length = 16) (hd : d < 2 ^ 32) (hs : s < 2 ^ 32)
    (hlen : 32 + cipher.length < 2 ^ 16) :
    (RequestSerializer.serialize c token (.normal d s p)).map PacketStruct.checksum =
      .ok (c.digest (MAGIC_BUFFER ++ (beBytes2 (32 + cipher.length) ++
        (DEFAULT_UNKNOWN_BUFFER ++ (beBytes4 d ++ (beBytes4 s ++ (token ++ cipher))))))) ∧
    MAGIC_BUFFER ++ (beBytes2 (32 + cipher.length) ++ (DEFAULT_UNKNOWN_BUFFER ++
        (beBytes4 d ++ (beBytes4 s ++ (MIN_16_BYTES_BUFFER ++ (token ++ cipher)))))) ≠
      MAGIC_BUFFER ++ (beBytes2 (32 + cipher.length) ++ (DEFAULT_UNKNOWN_BUFFER ++
        (beBytes4 d ++ (beBytes4 s ++ (token ++ cipher))))) := by
  constructor
  · rw [serialize_normal_ok c token d s p cipher hp hcipher hdig hd hs hlen]
    rfl
  · intro hcontra
    have hlencontra := congrArg List.length hcontra
    simp [MAGIC_BUFFER, beBytes2, beBytes4, MIN_16_BYTES_BUFFER,
      DEFAULT_UNKNOWN_BUFFER] at hlencontra
    omega

/-- Witness for the amended C9 at a concrete input. -/
theorem claim_C9_amended_witness :
    (RequestSerializer.serialize cryptoTrivial (List.replicate 16 0)
        (.normal 5 10 [123])).map PacketStruct.checksum = .ok (List.replicate 16 0) :=
  ((claim_C9_amended cryptoTrivial (List.replicate 16 0) 5 10 [123] [123]
    (by decide) rfl (fun x => rfl) (by decide) (by decide) (by decide)).1).trans rfl

/-- C10: serialization is deterministic - it is a function of the token
and the request alone (there is no nonce or randomness input), the key
and IV are derived from the token only, and equal requests under equal
tokens produce identical packets and identical wire bytes. -/
theorem claim_C10_deterministic (c : Crypto) (t1 t2 : List Nat) (d1 s1 : Nat)
    (p1 : List Nat) (d2 s2 : Nat) (p2 : List Nat)
    (ht : t1 = t2) (hd : d1 = d2) (hs : s1 = s2) (hp : p1 = p2) :
    RequestSerializer.serialize c t1 (.normal d1 s1 p1) =
      RequestSerializer.serialize c t2 (.normal d2 s2 p2) ∧
    (∀ q1 q2, RequestSerializer.serialize c t1 (.normal d1 s1 p1) = .ok q1 →
      RequestSerializer.serialize c t2 (.normal d2 s2 p2) = .ok q2 →
      PacketStruct.raw q1 = PacketStruct.raw q2 ∧ q1.data = q2.data) ∧
    (p1 ≠ [] → RequestSerializer.encryptData c t1 p1 =
      c.encrypt (c.digest t1) (c.digest (c.digest t1 ++ t1)) p1) := by
  subst ht hd hs hp
  refine ⟨rfl, ?_, fun hne => encryptData_eq c t1 p1 hne⟩
  intro q1 q2 h1 h2
  rw [h1] at h2
  injection h2 with h2
  exact ⟨by rw [h2], by rw [h2]⟩

/-- Witness for C10 at a concrete input. -/
theorem claim_C10_witness :
    RequestSerializer.serialize cryptoTrivial (List.replicate 16 0) (.normal 5 10 [123]) =
      RequestSerializer.serialize cryptoTrivial (List.replicate 16 0) (.normal 5 10 [123]) :=
  (claim_C10_deterministic cryptoTrivial (List.replicate 16 0) (List.replicate 16 0)
    5 10 [123] 5 10 [123] rfl rfl rfl rfl).1

/-- C2: for every parsed inbound packet, deserialization classifies it as
a handshake reply exactly when `unknown1` is zero, `packet_length` is 32
and the checksum is sixteen zero bytes; handshake replies are returned
without checksum verification or decryption, and every other packet is
rejected with the checksum-failed error unless its checksum equals the
digest of `header prefix || token || ciphertext`, in which case the
decrypted payload is returned as a normal response. -/
theorem claim_C2_deserialize (c : Crypto) (token b : List Nat) (p : PacketStruct)
    (hparse : PacketImpl.fromBuffer b = .ok p) :
    (ResponseDeserializer.isHandshake p = true ↔
      (p.unknown1 = DEFAULT_UNKNOWN_BUFFER ∧ p.packetLength = 32 ∧
        p.checksum = MIN_16_BYTES_BUFFER)) ∧
    (ResponseDeserializer.isHandshake p = true →
      ResponseDeserializer.deserialize c token p = .ok (.handshake p.deviceId p.stamp [])) ∧
    (ResponseDeserializer.isHandshake p = false →
      (p.checksum = c.digest (p.magicNumber ++ (beBytes2 p.packetLength ++
          (p.unknown1 ++ (beBytes4 p.deviceId ++ (beBytes4 p.stamp ++
            (token ++ p.data)))))) →
        ResponseDeserializer.deserialize c token p =
          .ok (.normal p.deviceId p.stamp
            (if p.data.length = 0 then p.data
             else c.decrypt (c.digest token) (c.digest (c.digest token ++ token)) p.data))) ∧
      (p.checksum ≠ c.digest (p.magicNumber ++ (beBytes2 p.packetLength ++
          (p.unknown1 ++ (beBytes4 p.deviceId ++ (beBytes4 p.stamp ++
            (token ++ p.data)))))) →
        ResponseDeserializer.deserialize c token p = .error .checksumFailed)) := by
  obtain ⟨hmg, hu, hck, hlen, hpl16, hdid, hst⟩ := fromBuffer_ok_facts b p hparse
  refine ⟨isHandshake_iff p, ?_, ?_⟩
  · intro hh
    rw [deserialize_eq c token p hpl16 hdid hst, if_pos (by simp [hh])]
    have hdata : p.data = [] := by
      have h32 := ((isHandshake_iff p).mp hh).2.1
      rw [h32] at hlen
      have hd0 : p.data.length = 0 := by omega
      exact List.length_eq_zero.mp hd0
    rw [decryptedData_eq]
    simp [hdata]
  · intro hh
    constructor
    · intro hcks
      rw [deserialize_eq c token p hpl16 hdid hst, if_neg (by simp [hh]),
        if_pos hcks, decryptedData_eq]
    · intro hcks
      rw [deserialize_eq c token p hpl16 hdid hst, if_neg (by simp [hh]),
        if_neg hcks]

/-- Witness for C2 at a concrete parsed handshake reply. -/
theorem claim_C2_witness :
    ResponseDeserializer.deserialize cryptoTrivial (List.replicate 16 0)
      ⟨MAGIC_BUFFER, 32, DEFAULT_UNKNOWN_BUFFER, 5, 10, MIN_16_BYTES_BUFFER, []⟩ =
      .ok (.handshake 5 10 []) :=
  (claim_C2_deserialize cryptoTrivial (List.replicate 16 0)
    [0x21, 0x31, 0, 32, 0, 0, 0, 0, 0, 0, 0, 5, 0, 0, 0, 10,
      0, 0, 0, 0, 0, 0, 0, 0, 0, 0, 0, 0, 0, 0, 0, 0]
    ⟨MAGIC_BUFFER, 32, DEFAULT_UNKNOWN_BUFFER, 5, 10, MIN_16_BYTES_BUFFER, []⟩
    (by rfl)).2.1 (by decide)

theorem deserialize_normal_of_fields (c : Crypto) (token : List Nat)
    (pkt : PacketStruct) (hpl : pkt.packetLength = 32 + pkt.data.length)
    (hdne : pkt.data ≠ []) (hpl16 : pkt.packetLength < 2 ^ 16)
    (hdid : pkt.deviceId < 2 ^ 32) (hst : pkt.stamp < 2 ^ 32)
    (hchk : pkt.checksum = c.digest (pkt.magicNumber ++ (beBytes2 pkt.packetLength ++
      (pkt.unknown1 ++ (beBytes4 pkt.deviceId ++ (beBytes4 pkt.stamp ++
        (token ++ pkt.data))))))) :
    ResponseDeserializer.deserialize c token pkt =
      .ok (.normal pkt.deviceId pkt.stamp
        (c.decrypt (c.digest token) (c.digest (c.digest token ++ token)) pkt.data)) := by
  rw [deserialize_eq c token pkt hpl16 hdid hst]
  have hh : ResponseDeserializer.isHandshake pkt = false := by
    have hpos : 0 < pkt.data.length := List.length_pos.mpr hdne
    simp only [ResponseDeserializer.isHandshake, HEADER_BYTES]
    have hne : ¬pkt.packetLength = 32 := by omega
    simp [hne]
  rw [if_neg (by simp [hh]), if_pos hchk, decryptedData_eq,
    if_neg (by simpa [List.length_eq_zero] using hdne)]

/-- C7: serializing a non-empty plaintext as a normal request, parsing
the produced frame bytes and deserializing the parsed packet under the
same token returns that plaintext byte for byte.  The cipher hypotheses
state that AES-128-CBC encryption of a non-empty message is non-empty
and that decryption inverts encryption. -/
theorem claim_C7_roundtrip (c : Crypto) (token : List Nat) (d s : Nat)
    (B : List Nat) (_htok : token.length = 16) (hB : B ≠ [])
    (hdig : ∀ x, (c.digest x).length = 16)
    (henc : ∀ k iv m, m ≠ [] → c.encrypt k iv m ≠ [])
    (hdec : ∀ k iv m, m ≠ [] → c.decrypt k iv (c.encrypt k iv m) = m)
    (hd : d < 2 ^ 32) (hs : s < 2 ^ 32)
    (hlen : 32 + (c.encrypt (c.digest token) (c.digest (c.digest token ++ token)) B).length < 2 ^ 16) :
    roundTrip c token d s B = .ok (.normal d s B) := by
  have hser := serialize_normal_ok c token d s B _ hB rfl hdig hd hs hlen
  have hcne : c.encrypt (c.digest token) (c.digest (c.digest token ++ token)) B ≠ [] :=
    henc _ _ _ hB
  obtain ⟨pkt, hpkt, hpkteq⟩ : ∃ pkt : PacketStruct,
      RequestSerializer.serialize c token (.normal d s B) = .ok pkt ∧
      pkt = ⟨MAGIC_BUFFER,
        32 + (c.encrypt (c.digest token) (c.digest (c.digest token ++ token)) B).length,
        DEFAULT_UNKNOWN_BUFFER, d, s,
        c.digest (MAGIC_BUFFER ++ (beBytes2 (32 +
          (c.encrypt (c.digest token) (c.digest (c.digest token ++ token)) B).length) ++
          (DEFAULT_UNKNOWN_BUFFER ++ (beBytes4 d ++ (beBytes4 s ++ (token ++
            c.encrypt (c.digest token) (c.digest (c.digest token ++ token)) B)))))),
        c.encrypt (c.digest token) (c.digest (c.digest token ++ token)) B⟩ :=
    ⟨_, hser, rfl⟩
  have hmg : pkt.magicNumber = MAGIC_BUFFER := by rw [hpkteq]
  have hu4 : pkt.unknown1.length = 4 := by rw [hpkteq]; rfl
  have hck16 : pkt.checksum.length = 16 := by rw [hpkteq]; exact hdig _
  have hpldata : pkt.packetLength = 32 + pkt.data.length := by rw [hpkteq]
  have hpl16 : pkt.packetLength < 2 ^ 16 := by rw [hpkteq]; exact hlen
  have hdid : pkt.deviceId < 2 ^ 32 := by rw [hpkteq]; exact hd
  have hstp : pkt.stamp < 2 ^ 32 := by rw [hpkteq]; exact hs
  have hdne : pkt.data ≠ [] := by rw [hpkteq]; exact hcne
  have hchk : pkt.checksum = c.digest (pkt.magicNumber ++ (beBytes2 pkt.packetLength ++
      (pkt.unknown1 ++ (beBytes4 pkt.deviceId ++ (beBytes4 pkt.stamp ++
        (token ++ pkt.data)))))) := by rw [hpkteq]
  unfold roundTrip
  rw [hpkt]
  simp only [Bind.bind, Except.bind]
  rw [raw_eq pkt hpl16 hdid hstp]
  simp only [Bind.bind, Except.bind]
  rw [fromBuffer_raw pkt hmg hu4 hck16 hpldata hpl16 hdid hstp _
    (raw_eq pkt hpl16 hdid hstp)]
  simp only [Bind.bind, Except.bind]
  rw [deserialize_normal_of_fields c token pkt hpldata hdne hpl16 hdid hstp hchk,
    hpkteq]
  show Except.ok (MiIOResponse.normal d s (c.decrypt (c.digest token)
    (c.digest (c.digest token ++ token))
    (c.encrypt (c.digest token) (c.digest (c.digest token ++ token)) B))) =
    Except.ok (MiIOResponse.normal d s B)
  rw [hdec _ _ _ hB]

/-- Witness for C7 at a concrete input. -/
theorem claim_C7_witness :
    roundTrip cryptoTrivial (List.replicate 16 0) 5 10 [123] = .ok (.normal 5 10 [123]) :=
  claim_C7_roundtrip cryptoTrivial (List.replicate 16 0) 5 10 [123] (by decide)
    (by decide) (fun x => rfl) (fun k iv m h => h) (fun k iv m h => rfl)
    (by decide) (by decide) (by decide)

/-- C5 (amended): for byte buffers of at least 32 bytes, parsing succeeds
exactly when the first two bytes are `0x21 0x31` and the declared 16-bit
length equals the buffer length; a wrong magic yields the bad-magic
error and a length mismatch the length-mismatch error.  Buffers shorter
than 32 bytes are rejected even when both conditions hold (see the
counterexample), which is what forces the length restriction. -/
theorem claim_C5_amended (b : List Nat) (h32 : 32 ≤ b.length)
    (hbytes : ∀ x ∈ b, x < 256) :
    ((∃ P, PacketImpl.fromBuffer b = .ok P) ↔
      (jsSlice b 0 2 = MAGIC_BUFFER ∧ declaredLength b = .ok b.length)) ∧
    (jsSlice b 0 2 ≠ MAGIC_BUFFER → PacketImpl.fromBuffer b = .error .badMagic) ∧
    (∀ n, jsSlice b 0 2 = MAGIC_BUFFER → declaredLength b = .ok n → n ≠ b.length →
      PacketImpl.fromBuffer b = .error .lenMismatch) := by
  have l0 : (jsSlice b 0 2).length = 2 := by simp [jsSlice]; omega
  have l2 : (jsSlice b 2 4).length = 2 := by simp [jsSlice]; omega
  have l4 : (jsSlice b 4 8).length = 4 := by simp [jsSlice]; omega
  have l8 : (jsSlice b 8 12).length = 4 := by simp [jsSlice]; omega
  have l12 : (jsSlice b 12 16).length = 4 := by simp [jsSlice]; omega
  have l16 : (jsSlice b 16 32).length = 16 := by simp [jsSlice]; omega
  obtain ⟨a0, a1, hl2⟩ := exists_pair_of_length_two _ l2
  obtain ⟨c0, c1, c2, c3, hl8⟩ := exists_quad_of_length_four _ l8
  obtain ⟨e0, e1, e2, e3, hl12⟩ := exists_quad_of_length_four _ l12
  have hmemslice : ∀ s t : Nat, ∀ x ∈ jsSlice b s t, x < 256 := by
    intro s t x hx
    exact hbytes x (List.mem_of_mem_drop (List.mem_of_mem_take hx))
  have ha0 : a0 < 256 := hmemslice 2 4 a0 (by rw [hl2]; simp)
  have ha1 : a1 < 256 := hmemslice 2 4 a1 (by rw [hl2]; simp)
  have hc0 : c0 < 256 := hmemslice 8 12 c0 (by rw [hl8]; simp)
  have hc1 : c1 < 256 := hmemslice 8 12 c1 (by rw [hl8]; simp)
  have hc2 : c2 < 256 := hmemslice 8 12 c2 (by rw [hl8]; simp)
  have hc3 : c3 < 256 := hmemslice 8 12 c3 (by rw [hl8]; simp)
  have he0 : e0 < 256 := hmemslice 12 16 e0 (by rw [hl12]; simp)
  have he1 : e1 < 256 := hmemslice 12 16 e1 (by rw [hl12]; simp)
  have he2 : e2 < 256 := hmemslice 12 16 e2 (by rw [hl12]; simp)
  have he3 : e3 < 256 := hmemslice 12 16 e3 (by rw [hl12]; simp)
  have hpl16 : a0 * 256 + a1 < 2 ^ 16 := by omega
  have hdid32 : ((c0 * 256 + c1) * 256 + c2) * 256 + c3 < 2 ^ 32 := by omega
  have hst32 : ((e0 * 256 + e1) * 256 + e2) * 256 + e3 < 2 ^ 32 := by omega
  have hfb : PacketImpl.fromBuffer b =
      PacketImpl.make (jsSlice b 0 2) (a0 * 256 + a1) (jsSlice b 4 8)
        (((c0 * 256 + c1) * 256 + c2) * 256 + c3)
        (((e0 * 256 + e1) * 256 + e2) * 256 + e3)
        (jsSlice b 16 32) (b.drop 32) := by
    unfold PacketImpl.fromBuffer
    rw [hl2, hl8, hl12]
    simp only [readUInt16BE, readUInt32BE, Bind.bind, Except.bind]
  have hdecl : declaredLength b = .ok (a0 * 256 + a1) := by
    unfold declaredLength
    rw [hl2]
    rfl
  have hbad : jsSlice b 0 2 ≠ MAGIC_BUFFER → PacketImpl.fromBuffer b = .error .badMagic := by
    intro hmagic
    rw [hfb]
    unfold PacketImpl.make
    rw [if_neg (fun hc => hmagic hc.1)]
  have hrawlen : (MAGIC_BUFFER ++ (beBytes2 (a0 * 256 + a1) ++ (jsSlice b 4 8 ++
      (beBytes4 (((c0 * 256 + c1) * 256 + c2) * 256 + c3) ++
        (beBytes4 (((e0 * 256 + e1) * 256 + e2) * 256 + e3) ++
          (jsSlice b 16 32 ++ b.drop 32)))))).length = b.length := by
    simp [MAGIC_BUFFER, beBytes2, beBytes4, l4, l16]
    omega
  have hok : jsSlice b 0 2 = MAGIC_BUFFER → a0 * 256 + a1 = b.length →
      PacketImpl.fromBuffer b = .ok ⟨jsSlice b 0 2, a0 * 256 + a1, jsSlice b 4 8,
        ((c0 * 256 + c1) * 256 + c2) * 256 + c3,
        ((e0 * 256 + e1) * 256 + e2) * 256 + e3,
        jsSlice b 16 32, b.drop 32⟩ := by
    intro hmagic hple
    rw [hfb]
    unfold PacketImpl.make
    rw [if_pos ⟨hmagic, l0⟩, if_pos l4, if_pos l16, raw_eq _ hpl16 hdid32 hst32]
    simp only [Bind.bind, Except.bind]
    rw [hrawlen, if_pos hple]
  have hmis : jsSlice b 0 2 = MAGIC_BUFFER → a0 * 256 + a1 ≠ b.length →
      PacketImpl.fromBuffer b = .error .lenMismatch := by
    intro hmagic hple
    rw [hfb]
    unfold PacketImpl.make
    rw [if_pos ⟨hmagic, l0⟩, if_pos l4, if_pos l16, raw_eq _ hpl16 hdid32 hst32]
    simp only [Bind.bind, Except.bind]
    rw [hrawlen, if_neg hple]
  refine ⟨⟨?_, ?_⟩, hbad, ?_⟩
  · rintro ⟨P, hP⟩
    by_cases hmagic : jsSlice b 0 2 = MAGIC_BUFFER
    · by_cases hple : a0 * 256 + a1 = b.length
      · exact ⟨hmagic, by rw [hdecl, hple]⟩
      · rw [hmis hmagic hple] at hP
        simp at hP
    · rw [hbad hmagic] at hP
      simp at hP
  · rintro ⟨hmagic, hdlen⟩
    rw [hdecl] at hdlen
    injection hdlen with hdlen
    exact ⟨_, hok hmagic hdlen⟩
  · intro n hmagic hdn hne
    rw [hdecl] at hdn
    injection hdn with hdn
    exact hmis hmagic (by omega)

/-- C5 counterexample: a 20-byte buffer with correct magic bytes and a
declared length equal to its own length is nevertheless rejected (the
checksum slice holds only 4 bytes), refuting the claimed equivalence for
arbitrary buffers. -/
theorem claim_C5_counterexample :
    jsSlice ([0x21, 0x31, 0x00, 0x14] ++ List.replicate 16 0) 0 2 = MAGIC_BUFFER ∧
    declaredLength ([0x21, 0x31, 0x00, 0x14] ++ List.replicate 16 0) =
      .ok ([0x21, 0x31, 0x00, 0x14] ++ List.replicate 16 0).length ∧
    PacketImpl.fromBuffer ([0x21, 0x31, 0x00, 0x14] ++ List.replicate 16 0) =
      .error .badChecksumLen := by
  refine ⟨rfl, rfl, rfl⟩

/-- Witness for the amended C5 at a concrete 32-byte buffer with a wrong
magic byte. -/
theorem claim_C5_witness :
    PacketImpl.fromBuffer ([0x22, 0x31, 0x00, 0x20] ++ List.replicate 28 0) =
      .error .badMagic :=
  (claim_C5_amended ([0x22, 0x31, 0x00, 0x20] ++ List.replicate 28 0)
    (by decide) (by decide)).2.1 (by decide)

/-- C3 (code evaluation): the retry quota is a closure variable shared by
all calls through the same wrapped function.  A first call whose three
attempts all fail with `Timeout` consumes the whole quota and fails with
the retry-exhausted error carrying `Timeout`; a second call on the same
client then starts with quota 0, makes zero attempts, and fails
immediately with a retry-exhausted error carrying no underlying error -
contradicting the claim that a fresh call starts with the full budget of
3 attempts. -/
theorem claim_C3_code_eval :
    retryCall (fun _ => (.error SendErr.timeout : Except SendErr Nat)) ⟨3⟩ =
      (.error (some .timeout), ⟨0⟩, 3) ∧
    retryCall (fun _ => (.error SendErr.timeout : Except SendErr Nat)) ⟨0⟩ =
      (.error none, ⟨0⟩, 0) :=
  ⟨rfl, rfl⟩

/-- C4 (code evaluation): with two entries pending (request ids 1001 at
index 0 and 1002 at index 1), an inbound reply for id 1002 finds the
matching entry at index 1, but the `if (index)` guard treats any
non-zero index as not-found: the handler logs the warning and leaves the
queue unchanged, so the matching entry is never resolved and its timeout
keeps running - contradicting the claim that the matching entry is
resolved.  A match at index 0 is resolved and removed, and a reply with
no matching id is dropped with the queue unchanged. -/
theorem claim_C4_code_eval :
    removeFromWaitQueue [⟨some 1001, 0⟩, ⟨some 1002, 1⟩] (some 1002) =
      (none, [⟨some 1001, 0⟩, ⟨some 1002, 1⟩], true) ∧
    removeFromWaitQueue [⟨some 1001, 0⟩, ⟨some 1002, 1⟩] (some 1001) =
      (some ⟨some 1001, 0⟩, [⟨some 1002, 1⟩], false) ∧
    removeFromWaitQueue [⟨some 1001, 0⟩, ⟨some 1002, 1⟩] (some 9999) =
      (none, [⟨some 1001, 0⟩, ⟨some 1002, 1⟩], true) := by
  refine ⟨by decide, by decide, by decide⟩

/-- C8 counterexample: after a handshake at local instant 1000 ms that
reported device stamp 0, a call at 6000 ms - within the 10 s TTL and with
no invalidation - performs a second handshake (the truthiness check
`!this.deviceStamp` treats the recorded stamp 0 as missing), and the
transmitted stamp comes from the new handshake reply instead of the
claimed `0 + floor((6000 - 1000) / 1000) = 5`. -/
theorem claim_C8_counterexample :
    MiIOClient.getRequestMetadata ⟨none⟩ ⟨1000, some 5, some 0, some 1000⟩ 6000 ⟨7, 42⟩ 6000 =
      (⟨1000, some 7, some 42, some 6000⟩, ⟨7, 42, 6000⟩, true) ∧
    MiIOClient.sendStamp ⟨7, 42, 6000⟩ 6000 = 42 := by
  refine ⟨by decide, by decide⟩

/-- C8 (amended): when the recorded handshake tuple is present with
non-zero device id, device stamp and local instant (JavaScript truthiness
treats 0 as absent) and the handshake has not expired past the TTL, a
normal request performs no additional handshake, reuses the recorded
metadata, and transmits stamp `s + floor((t - t0) / 1000)`; in
particular a second call 5 s after the handshake transmits `s + 5`. -/
theorem claim_C8_amended (cfg : ClientConfig) (st : ClientState) (d s t0 : Nat)
    (hd : st.deviceId = some d) (hs : st.deviceStamp = some s)
    (ht : st.handshakeTimestamp = some t0)
    (hd0 : d ≠ 0) (hs0 : s ≠ 0) (ht0 : t0 ≠ 0) (now : Nat)
    (hvalid : now - t0 ≤ cfg.handshakeTimeout.getD DEFAULT_TIMEOUT)
    (reply : HandshakeReplyData) (replyTime : Nat) :
    MiIOClient.getRequestMetadata cfg st now reply replyTime = (st, ⟨d, s, t0⟩, false) ∧
    (∀ tSend, MiIOClient.sendStamp ⟨d, s, t0⟩ tSend = s + (tSend - t0) / 1000) := by
  have hneed : MiIOClient.needsHandshake cfg st now = false := by
    simp only [MiIOClient.needsHandshake, hd, hs, ht, jsFalsy, Option.getD_some,
      Bool.or_eq_false_iff, beq_eq_false_iff_ne, decide_eq_false_iff_not, not_lt]
    exact ⟨⟨⟨ht0, hd0⟩, hs0⟩, hvalid⟩
  constructor
  · rw [MiIOClient.getRequestMetadata, if_neg (by simp [hneed])]
    rw [hd, hs, ht]
    rfl
  · intro tSend
    simp [MiIOClient.sendStamp, Nat.add_comm]

/-- Witness for the amended C8: two calls 5 s apart within the TTL; the
second call does no handshake and transmits stamp 10 + 5. -/
theorem claim_C8_witness :
    MiIOClient.getRequestMetadata ⟨none⟩ ⟨1000, some 5, some 10, some 1000⟩ 6000 ⟨7, 42⟩ 6000 =
      (⟨1000, some 5, some 10, some 1000⟩, ⟨5, 10, 1000⟩, false) ∧
    MiIOClient.sendStamp ⟨5, 10, 1000⟩ 6000 = 10 + 5 :=
  ⟨(claim_C8_amended ⟨none⟩ ⟨1000, some 5, some 10, some 1000⟩ 5 10 1000 rfl rfl rfl
      (by decide) (by decide) (by decide) 6000 (by decide) ⟨7, 42⟩ 6000).1,
    (claim_C8_amended ⟨none⟩ ⟨1000, some 5, some 10, some 1000⟩ 5 10 1000 rfl rfl rfl
      (by decide) (by decide) (by decide) 6000 (by decide) ⟨7, 42⟩ 6000).2 6000⟩

/-- RFC 1321 test vector: the MD5 of the empty message. -/
theorem md5bytes_empty_vector :
    MD5.md5bytes [] = [0xd4, 0x1d, 0x8c, 0xd9, 0x8f, 0x00, 0xb2, 0x04,
      0xe9, 0x80, 0x09, 0x98, 0xec, 0xf8, 0x42, 0x7e] := by
  decide

/-- RFC 1321 test vector: the MD5 of `"abc"`. -/
theorem md5bytes_abc_vector :
    MD5.md5bytes [0x61, 0x62, 0x63] = [0x90, 0x01, 0x50, 0x98, 0x3c, 0xd2,
      0x4f, 0xb0, 0xd6, 0x96, 0x3f, 0x7d, 0x28, 0xe1, 0x7f, 0x72] := by
  decide

set_option maxRecDepth 100000 in
/-- C9 counterexample: for a concrete outbound normal frame built with
the real MD5 digest (device id 5, stamp 10, token `00..0f`, one-byte
ciphertext `0x61`), the transmitted checksum equals the digest of the
16-byte header prefix followed directly by the token and ciphertext, and
that digest differs from the digest of the 32-byte zeroed-checksum
header followed by the token and ciphertext - so the checksum does NOT
equal the zeroed-header construction and the two formulations are not
equivalent. -/
theorem claim_C9_counterexample :
    (RequestSerializer.serialize cryptoMd5 (List.range 16)
        (.normal 5 10 [0x61])).map PacketStruct.checksum =
      .ok (MD5.md5bytes (MAGIC_BUFFER ++ (beBytes2 33 ++ (DEFAULT_UNKNOWN_BUFFER ++
        (beBytes4 5 ++ (beBytes4 10 ++ (List.range 16 ++ [0x61]))))))) ∧
    MD5.md5bytes (MAGIC_BUFFER ++ (beBytes2 33 ++ (DEFAULT_UNKNOWN_BUFFER ++
        (beBytes4 5 ++ (beBytes4 10 ++ (MIN_16_BYTES_BUFFER ++
          (List.range 16 ++ [0x61]))))))) ≠
      MD5.md5bytes (MAGIC_BUFFER ++ (beBytes2 33 ++ (DEFAULT_UNKNOWN_BUFFER ++
        (beBytes4 5 ++ (beBytes4 10 ++ (List.range 16 ++ [0x61])))))) := by
  refine ⟨rfl, by decide⟩
